import Mathlib

/-!
Shallow embedding of `magic_pdf/model/batch_analyze.py` (the only source file
of this repository snapshot): the `BatchAnalyze` batch orchestrator and the
`doc_batch_analyze` document-level driver.

Modelling conventions:
* Python dict-based regions become the `Region` structure (`category_id`,
  `poly`, `score`, and the optional `html` content attached by the table
  stage).
* External model collaborators (layout / formula / OCR / table engines) and
  repository helpers that are not under `src/` (`crop_img`,
  `get_adjusted_mfdetrec_res`, `get_ocr_result_list`,
  `get_res_list_from_layout_res`) are modelled as function-valued fields of
  `CustomPEKModel` / `Collaborators`, so every run of the embedding is a pure
  function of those collaborators.
* Wall-clock measurements (`time.time()` differences) are modelled as an
  external oracle (`table_elapsed`), passed to the table step as data.
* Python exceptions become the `PyError` type; a Python function that can
  raise returns `Except PyError _`.  Python `None` results are `Option.none`.
* Observable side effects (logger calls, `clean_vram`, `clean_memory`,
  dataset accesses, model resolution) are recorded in an event trace.
* Out-of-range list indexing on collaborator-returned batched lists (a
  violation of the index-aligned collaborator contract, which would raise
  `IndexError` in Python) is modelled with `List.getD` defaults; a
  `List.set` past the end is a no-op.
-/

/-- Opaque stand-in for a pixel buffer (numpy array or PIL image). -/
structure Image where
  raw : Nat
deriving DecidableEq, Repr, Inhabited

/-- One detected region: the dict `{category_id, poly, score}` produced by the
detection models, plus the `"html"` key that the table stage may attach. -/
structure Region where
  category_id : Nat
  poly : List Int
  score : Int
  html : Option String := none
deriving DecidableEq, Repr, Inhabited

/-- Per-image formula-detection output fed to the formula recognizer. -/
abbrev MfdPage := List Region

/-- An adjusted formula box handed to the OCR engine. -/
abbrev MfdeBox := List Int

/-- One raw OCR result item (element of `ocr(...)[0]`). -/
abbrev OcrItem := List Int

/-- The bookkeeping list returned by `crop_img` (offsets of the crop). -/
abbrev UsefulList := List Int

/-- Python exceptions that the embedded code can raise. -/
inductive PyError where
  | cudaNotAvailable : PyError
  | unboundLocalError : PyError
  | attributeErrorNonePop : PyError
  | indexError : PyError
deriving DecidableEq, Repr

/-- Observable events: model invocations, logger output, memory cleanup and
dataset accesses, in the order the Python code performs them. -/
inductive Event where
  | layoutPredict : Event
  | mfdPredict : Event
  | mfrPredict : Event
  | cleanVram : Nat → Event
  | ocrCall : Event
  | infoOcrTime : Bool → Event
  | warnTableTimeout : Event
  | warnTableBadEnding : Event
  | warnTableNoHtml : Event
  | infoTableTime : Event
  | getModelEv : Event
  | getPage : Nat → Event
  | cleanMemoryEv : Event
deriving DecidableEq, Repr

/-- Events emitted by the per-image OCR/table processing loop (lines 68-149),
as opposed to the batched layout/formula stages and the cleanup step. -/
def Event.isPerImage : Event → Bool
  | .ocrCall => true
  | .infoOcrTime _ => true
  | .warnTableTimeout => true
  | .warnTableBadEnding => true
  | .warnTableNoHtml => true
  | .infoTableTime => true
  | _ => false

namespace MODEL_NAME

/-- Modelled from the spec: the `MODEL_NAME` string constants of
`magic_pdf.config.constants` (not under `src/`); only their identity as
distinct strings matters to this file. -/
def LAYOUTLMv3 : String := "layoutlmv3"

/-- Modelled from the spec: see `MODEL_NAME.LAYOUTLMv3`. -/
def DocLayout_YOLO : String := "doclayout_yolo"

/-- Modelled from the spec: see `MODEL_NAME.LAYOUTLMv3`. -/
def STRUCT_EQTABLE : String := "struct_eqtable"

/-- Modelled from the spec: see `MODEL_NAME.LAYOUTLMv3`. -/
def TABLE_MASTER : String := "tablemaster"

/-- Modelled from the spec: see `MODEL_NAME.LAYOUTLMv3`. -/
def RAPID_TABLE : String := "rapid_table"

end MODEL_NAME

/-- Base batch size for the DocLayout-YOLO layout detector (line 26). -/
def YOLO_LAYOUT_BASE_BATCH_SIZE : Nat := 4

/-- Base batch size for formula detection (line 27). -/
def MFD_BASE_BATCH_SIZE : Nat := 1

/-- Base batch size for formula recognition (line 28). -/
def MFR_BASE_BATCH_SIZE : Nat := 16

/-- The external model bundle (`CustomPEKModel`): feature flags, chosen model
names, the configured table time budget, and the collaborator engines as
opaque functions ("batched call in, index-aligned batched results out"). -/
structure CustomPEKModel where
  layout_model_name : String
  apply_formula : Bool
  apply_ocr : Bool
  apply_table : Bool
  table_model_name : String
  table_max_time : Nat
  device : String
  layout_model : Image → List Nat → List Region
  layout_batch_predict : List Image → Nat → List (List Region)
  mfd_batch_predict : List Image → Nat → List MfdPage
  mfr_batch_predict : List MfdPage → List Image → Nat → List (List Region)
  ocr_model : Image → List MfdeBox → Bool → List OcrItem
  table_model_structeq : Image → List String
  table_model_img2html : Image → String
  table_model_rapid : Image → Option String × List MfdeBox × Nat

/-- Repository helpers that live outside `src/` plus ambient conversions,
modelled as opaque pure functions.  `isOcrCat`/`isTableCat`/`isFormulaCat`
are the category classification used by `get_res_list_from_layout_res`
(modelled from the spec: the splitter partitions a region list purely by
category, without mutating it).  `table_elapsed` is the wall-clock oracle for
one table-recognition call. -/
structure Collaborators where
  fromarray : Image → Image
  cvtColorRGB2BGR : Image → Image
  crop_img : Region → Image → Nat → Nat → Image × UsefulList
  get_adjusted_mfdetrec_res : List Region → UsefulList → List MfdeBox
  get_ocr_result_list : List OcrItem → UsefulList → List Region
  isOcrCat : Nat → Bool
  isTableCat : Nat → Bool
  isFormulaCat : Nat → Bool
  table_elapsed : Image → Nat

/-- Modelled from the spec: `get_res_list_from_layout_res` (repository code
outside `src/`) partitions one image's region list into OCR candidates, table
candidates and formula-context detections, a pure function of category. -/
def get_res_list_from_layout_res (C : Collaborators) (layout_res : List Region) :
    List Region × List Region × List Region :=
  (layout_res.filter (fun r => C.isOcrCat r.category_id),
   layout_res.filter (fun r => C.isTableCat r.category_id),
   layout_res.filter (fun r => C.isFormulaCat r.category_id))

/-- Python `str.strip()`: drop leading and trailing whitespace, modelled over
the character list so that it evaluates inside the kernel. -/
def pyStrip (s : String) : String :=
  String.mk (((s.data.dropWhile Char.isWhitespace).reverse.dropWhile
    Char.isWhitespace).reverse)

/-- Python `str.endswith(suffix)`, modelled over the character list. -/
def pyEndsWith (s suffix : String) : Bool :=
  suffix.data.isSuffixOf s.data

/-- Backend selection of the table stage, lines 115-128: the value bound to
`html_code` (`none` models Python `None`, also kept when the configured table
model name matches none of the three recognized backends). -/
def tableHtmlCode (m : CustomPEKModel) (new_image : Image) : Option String :=
  if m.table_model_name = MODEL_NAME.STRUCT_EQTABLE then
    match m.table_model_structeq new_image with
    | [] => none
    | h :: _ => some h
  else if m.table_model_name = MODEL_NAME.TABLE_MASTER then
    some (m.table_model_img2html new_image)
  else if m.table_model_name = MODEL_NAME.RAPID_TABLE then
    (m.table_model_rapid new_image).1
  else none

/-- One table-candidate region, lines 114-148: run the selected backend on the
already-cropped image, warn when the measured `run_time` exceeds the
configured budget, then validate the markup — Python's `if html_code:` is
falsy for both `None` and the empty string, and only a trimmed string ending
in `"</html>"` or `"</table>"` is attached as `res["html"]`. -/
def processTableRegion (m : CustomPEKModel) (new_image : Image) (run_time : Nat)
    (res : Region) : Region × List Event :=
  let html_code := tableHtmlCode m new_image
  let ev1 : List Event :=
    if run_time > m.table_max_time then [Event.warnTableTimeout] else []
  match html_code with
  | some code =>
    if code = "" then (res, ev1 ++ [Event.warnTableNoHtml])
    else if pyEndsWith (pyStrip code) "</html>" || pyEndsWith (pyStrip code) "</table>" then
      ({ res with html := some code }, ev1)
    else (res, ev1 ++ [Event.warnTableBadEnding])
  | none => (res, ev1 ++ [Event.warnTableNoHtml])

/-- Table recognition over one image's region list, lines 110-149: each region
classified as a table candidate (an element of `table_res_list`, which holds
the same dict objects that sit in `layout_res`) is cropped without padding and
processed by `processTableRegion`; the in-place `res["html"] = ...` mutation
is rendered as updating that region's slot in the list.  Disabled table
recognition leaves the list untouched and logs nothing. -/
def tableStage (m : CustomPEKModel) (C : Collaborators) (pil_img : Image)
    (layout_res : List Region) : List Region × List Event :=
  if m.apply_table then
    (layout_res.map (fun r =>
       if C.isTableCat r.category_id then
         let cropped := (C.crop_img r pil_img 0 0).1
         (processTableRegion m cropped (C.table_elapsed cropped) r).1
       else r),
     (layout_res.filter (fun r => C.isTableCat r.category_id)).flatMap
       (fun r =>
         let cropped := (C.crop_img r pil_img 0 0).1
         (processTableRegion m cropped (C.table_elapsed cropped) r).2)
       ++ [Event.infoTableTime])
  else (layout_res, [])

/-- The OCR additions of lines 76-102 for one image: every OCR-candidate
region is cropped with the fixed 50/50 padding, the page's formula-context
boxes are translated into the crop frame, the crop is converted to BGR and
passed to the OCR engine with the `rec` flag driven by `apply_ocr`; a falsy
(empty) result contributes nothing, otherwise the translated-back result
regions are appended. -/
def ocrAdditions (m : CustomPEKModel) (C : Collaborators) (pil_img : Image)
    (ocr_res_list : List Region) (single_page_mfdetrec_res : List Region) :
    List Region :=
  ocr_res_list.flatMap (fun res =>
    let cropped := C.crop_img res pil_img 50 50
    let adjusted := C.get_adjusted_mfdetrec_res single_page_mfdetrec_res cropped.2
    let new_image := C.cvtColorRGB2BGR cropped.1
    let ocr_res := m.ocr_model new_image adjusted m.apply_ocr
    if ocr_res.isEmpty then [] else C.get_ocr_result_list ocr_res cropped.2)

/-- One iteration of the per-image loop, lines 68-149: split the unified
layout+formula list, extend it with the OCR results (appended after the
original regions), log the OCR timing, then run the table stage, which
mutates table-candidate slots of the original list in place. -/
def processImage (m : CustomPEKModel) (C : Collaborators) (image : Image)
    (layout_res : List Region) : List Region × List Event :=
  let pil_img := C.fromarray image
  let split := get_res_list_from_layout_res C layout_res
  let adds := ocrAdditions m C pil_img split.1 split.2.2
  let ocrEvents := split.1.map (fun _ => Event.ocrCall)
  let tbl := tableStage m C pil_img layout_res
  (tbl.1 ++ adds, ocrEvents ++ [Event.infoOcrTime m.apply_ocr] ++ tbl.2)

/-- The formula-merge loop of lines 61-62: `images_layout_res[i] +=
images_formula_list[i]` for `i` in `range n`, rendered with `List.set`. -/
def mergeFormulaLists (L F : List (List Region)) (n : Nat) : List (List Region) :=
  (List.range n).foldl (fun acc i => acc.set i (acc.getD i [] ++ F.getD i [])) L

/-- The formula stage, lines 49-62, acting on an already-bound layout result:
when `apply_formula` is set, run batched formula detection and recognition and
append each image's recognized formulas to its layout list; otherwise leave
the lists untouched. -/
def formulaStage (m : CustomPEKModel) (br : Nat) (images : List Image)
    (L : List (List Region)) : List (List Region) :=
  if m.apply_formula then
    mergeFormulaLists L
      (m.mfr_batch_predict (m.mfd_batch_predict images (br * MFD_BASE_BATCH_SIZE))
        images (br * MFR_BASE_BATCH_SIZE))
      images.length
  else L

/-- Outcome of one `BatchAnalyze.__call__`: the Python return value (`none`
models the implicit `return None`; an exception is an `Except.error`), the
final state of the local `images_layout_res` variable (`none` while unbound),
and the event trace emitted before returning or raising. -/
structure CallOutcome where
  ret : Except PyError (Option (List (List Region)))
  internal : Option (List (List Region))
  trace : List Event
deriving Repr

/-- Lines 37-47: the value bound to `images_layout_res` by the layout stage;
`none` when `layout_model_name` matches neither recognized strategy, in which
case the variable is never bound. -/
def layoutStageRes (m : CustomPEKModel) (br : Nat) (images : List Image) :
    Option (List (List Region)) :=
  if m.layout_model_name = MODEL_NAME.LAYOUTLMv3 then
    some (images.map (fun image => m.layout_model image []))
  else if m.layout_model_name = MODEL_NAME.DocLayout_YOLO then
    some (m.layout_batch_predict images (br * YOLO_LAYOUT_BASE_BATCH_SIZE))
  else none

/-- Model-invocation events of the layout stage: one per image for the
sequential LayoutLMv3 strategy, a single batched call for DocLayout-YOLO,
nothing when no branch is taken. -/
def layoutStageEvents (m : CustomPEKModel) (images : List Image) : List Event :=
  if m.layout_model_name = MODEL_NAME.LAYOUTLMv3 then
    images.map (fun _ => Event.layoutPredict)
  else if m.layout_model_name = MODEL_NAME.DocLayout_YOLO then
    [Event.layoutPredict]
  else []

namespace BatchAnalyze

/-- `BatchAnalyze.__call__`, lines 36-149.  The method body ends without a
`return` statement, so on normal completion Python returns `None` (`Except.ok
none`); the per-image results only ever live in the local variable captured in
`CallOutcome.internal`.  An unrecognized layout model name leaves
`images_layout_res` unbound: the first later read of it —
at line 62 when the formula stage runs on a non-empty batch, else at line 69
when the per-image loop runs — raises `UnboundLocalError`; with an empty
image batch neither read is ever executed and the call completes. -/
def call (m : CustomPEKModel) (C : Collaborators) (br : Nat)
    (images : List Image) : CallOutcome :=
  let ev1 := layoutStageEvents m images
  let evF : List Event :=
    if m.apply_formula then [Event.mfdPredict, Event.mfrPredict] else []
  match layoutStageRes m br images with
  | none =>
    match images with
    | [] =>
      { ret := .ok none, internal := none,
        trace := ev1 ++ evF ++ [Event.cleanVram 8] }
    | _ :: _ =>
      if m.apply_formula then
        { ret := .error .unboundLocalError, internal := none, trace := ev1 ++ evF }
      else
        { ret := .error .unboundLocalError, internal := none,
          trace := ev1 ++ evF ++ [Event.cleanVram 8] }
  | some L =>
    let L1 := formulaStage m br images L
    let results := (List.range images.length).map
      (fun index => processImage m C (images.getD index default) (L1.getD index []))
    { ret := .ok none,
      internal := some ((results.map (fun p => p.1)) ++ L1.drop images.length),
      trace := ev1 ++ evF ++ [Event.cleanVram 8] ++ (results.map (fun p => p.2)).flatten }

end BatchAnalyze

/-- One page of the dataset collaborator: `get_page(i).get_image()` yields
the raw image together with its width and height. -/
structure PageData where
  img : Image
  width : Nat
  height : Nat
deriving DecidableEq, Repr, Inhabited

/-- The dataset collaborator: page count plus per-index page data. -/
abbrev Dataset := List PageData

/-- The `page_info` dict of line 221. -/
structure PageInfo where
  page_no : Nat
  height : Nat
  width : Nat
deriving DecidableEq, Repr

/-- The per-page dict of line 222. -/
structure PageDict where
  layout_dets : List Region
  page_info : PageInfo
deriving DecidableEq, Repr

/-- The `InferenceResult(model_json, dataset)` value of line 228. -/
structure InferenceResult where
  model_json : List PageDict
  dataset : Dataset
deriving DecidableEq, Repr

/-- Line 192, `end_page_id = end_page_id if end_page_id else len(dataset)`:
Python truthiness replaces both `None` and `0` by the page count. -/
def effectiveEnd (end_page_id : Option Int) (n : Nat) : Int :=
  match end_page_id with
  | none => (n : Int)
  | some e => if e = 0 then (n : Int) else e

/-- The page filter `start_page_id <= index <= end_page_id` used by both the
batch-building loop (line 205) and the reassembly loop (line 216), applied
after the line-192 normalization produced `epid`. -/
def pageInBatch (start_page_id epid : Int) (index : Nat) : Bool :=
  decide (start_page_id ≤ (index : Int)) && decide ((index : Int) ≤ epid)

/-- The page-range condition as the claim words it: `start_page_id <= i <=
end_page_id`, with an unset `end_page_id` extending the range to the last
page of the document. -/
def claimedInRange (start_page_id : Int) (end_page_id : Option Int)
    (index : Nat) : Bool :=
  decide (start_page_id ≤ (index : Int)) &&
    match end_page_id with
    | none => true
    | some e => decide ((index : Int) ≤ e)

/-- Reassembly loop of lines 211-223 over the listed page indices: every index
reads its page data from the dataset; an in-range index then pops the head of
`analyze_result` — which raises `AttributeError` when that value is `None`
(the actual `BatchAnalyze.__call__` return) and `IndexError` when the queue is
an exhausted list — while an out-of-range index records an empty region
list. -/
def reassemble (ds : Dataset) (pred : Nat → Bool)
    (q : Option (List (List Region))) :
    List Nat → Except PyError (List PageDict) × List Event
  | [] => (.ok [], [])
  | index :: rest =>
    let pd := ds.getD index default
    if pred index then
      match q with
      | none => (.error .attributeErrorNonePop, [Event.getPage index])
      | some [] => (.error .indexError, [Event.getPage index])
      | some (result :: q') =>
        let page : PageDict :=
          { layout_dets := result,
            page_info := { page_no := index, height := pd.height, width := pd.width } }
        match reassemble ds pred (some q') rest with
        | (.ok pages, ev) => (.ok (page :: pages), Event.getPage index :: ev)
        | (.error e, ev) => (.error e, Event.getPage index :: ev)
    else
      let page : PageDict :=
        { layout_dets := [],
          page_info := { page_no := index, height := pd.height, width := pd.width } }
      match reassemble ds pred q rest with
      | (.ok pages, ev) => (.ok (page :: pages), Event.getPage index :: ev)
      | (.error e, ev) => (.error e, Event.getPage index :: ev)

/-- `doc_batch_analyze`, lines 152-228.  `cuda_available` stands for
`torch.cuda.is_available()`, `getModel` for `ModelSingleton().get_model`.
The function first fails fast on the accelerator precondition, normalizes
`lang`, `batch_ratio` and `end_page_id`, builds the batch of in-range page
images, invokes the orchestrator once, reassembles one record per dataset
page, and frees memory before returning. -/
def doc_batch_analyze (cuda_available : Bool)
    (getModel : Bool → Bool → Option String → Option String → Option Bool →
      Option Bool → CustomPEKModel)
    (C : Collaborators) (dataset : Dataset) (ocr show_log : Bool)
    (start_page_id : Int) (end_page_id : Option Int) (lang : Option String)
    (layout_model : Option String) (formula_enable table_enable : Option Bool)
    (batch_ratio : Option Nat) :
    Except PyError InferenceResult × List Event :=
  if cuda_available = false then (.error .cudaNotAvailable, [])
  else
    let lang1 := if lang = some "" then none else lang
    let br := batch_ratio.getD 1
    let n := dataset.length
    let epid := effectiveEnd end_page_id n
    let m := getModel ocr show_log lang1 layout_model formula_enable table_enable
    let inIdx := (List.range n).filter (fun i => pageInBatch start_page_id epid i)
    let images := inIdx.map (fun i => (dataset.getD i default).img)
    let evBuild := Event.getModelEv :: inIdx.map Event.getPage
    let out := BatchAnalyze.call m C br images
    match out.ret with
    | .error e => (.error e, evBuild ++ out.trace)
    | .ok retval =>
      match reassemble dataset (pageInBatch start_page_id epid) retval (List.range n) with
      | (.error e, evRe) => (.error e, evBuild ++ out.trace ++ evRe)
      | (.ok model_json, evRe) =>
        (.ok { model_json := model_json, dataset := dataset },
         evBuild ++ out.trace ++ evRe ++ [Event.cleanMemoryEv])

/-- Rendering of claim C8 as stated: every per-image OCR/table event of the
orchestrator's trace precedes every accelerator-cleanup event. -/
def cleanupAfterAllPerImage (tr : List Event) : Prop :=
  ∀ i j t e, tr.get? i = some (Event.cleanVram t) → tr.get? j = some e →
    e.isPerImage = true → j < i

/-- A concrete page image used by the concrete instantiations below. -/
def img0 : Image := { raw := 0 }

/-- A second concrete page image. -/
def img1 : Image := { raw := 1 }

/-- Concrete collaborator bundle: identity conversions, cropping that returns
the page itself, empty adjusted boxes and OCR translations, the usual category
classification (1 = OCR candidate, 5 = table candidate, 13 = formula), and a
zero-time wall clock. -/
def c0 : Collaborators where
  fromarray := id
  cvtColorRGB2BGR := id
  crop_img := fun _ img _ _ => (img, [])
  get_adjusted_mfdetrec_res := fun _ _ => []
  get_ocr_result_list := fun _ _ => []
  isOcrCat := fun c => c == 1
  isTableCat := fun c => c == 5
  isFormulaCat := fun c => c == 13
  table_elapsed := fun _ => 0

/-- A concrete plain layout region (category 0). -/
def rPlain : Region := { category_id := 0, poly := [1, 2, 3, 4], score := 9 }

/-- A concrete OCR-candidate region (category 1). -/
def rOcr : Region := { category_id := 1, poly := [5, 6, 7, 8], score := 9 }

/-- A concrete table-candidate region (category 5). -/
def rTable : Region := { category_id := 5, poly := [2, 2, 9, 9], score := 9 }

/-- Concrete model bundle: sequential LayoutLMv3 layout strategy returning one
plain region per image, every optional stage disabled, TableMaster backend
producing well-formed markup. -/
def mBase : CustomPEKModel where
  layout_model_name := MODEL_NAME.LAYOUTLMv3
  apply_formula := false
  apply_ocr := false
  apply_table := false
  table_model_name := MODEL_NAME.TABLE_MASTER
  table_max_time := 400
  device := "cuda"
  layout_model := fun _ _ => [rPlain]
  layout_batch_predict := fun imgs _ => imgs.map (fun _ => [])
  mfd_batch_predict := fun imgs _ => imgs.map (fun _ => [])
  mfr_batch_predict := fun _ imgs _ => imgs.map (fun _ => [rPlain])
  ocr_model := fun _ _ _ => []
  table_model_structeq := fun _ => []
  table_model_img2html := fun _ => "<html><table></table></html>"
  table_model_rapid := fun _ => (none, [], 0)

/-- Variant of `mBase` whose layout stage detects one OCR-candidate region. -/
def m8 : CustomPEKModel := { mBase with layout_model := fun _ _ => [rOcr] }

/-- Variant of `mBase` with an unrecognized layout model name. -/
def mBad : CustomPEKModel := { mBase with layout_model_name := "abc" }

/-- Variant of `mBase` with the formula stage enabled. -/
def mFormula : CustomPEKModel := { mBase with apply_formula := true }

/-- Variant of `mBase` using the batched DocLayout-YOLO layout strategy. -/
def mYolo : CustomPEKModel :=
  { mBase with layout_model_name := MODEL_NAME.DocLayout_YOLO }

/-- A one-page concrete dataset. -/
def ds1 : Dataset := [{ img := img0, width := 100, height := 200 }]

/-- A two-page concrete dataset. -/
def ds2 : Dataset :=
  [{ img := img0, width := 10, height := 20 }, { img := img1, width := 30, height := 40 }]

/-- Model resolution returning `mBase` for every configuration key. -/
def gm0 : Bool → Bool → Option String → Option String → Option Bool →
    Option Bool → CustomPEKModel :=
  fun _ _ _ _ _ _ => mBase

/-- Model resolution returning `mYolo` for every configuration key. -/
def gmY : Bool → Bool → Option String → Option String → Option Bool →
    Option Bool → CustomPEKModel :=
  fun _ _ _ _ _ _ => mYolo

/-- The (box, category) signature of a region, the data claim C9 compares
across two runs. -/
def regionSig (r : Region) : List Int × Nat := (r.poly, r.category_id)

/-- Signatures of the orchestrator's per-image region lists. -/
def internalSigs (o : Option (List (List Region))) :
    Option (List (List (List Int × Nat))) :=
  o.map (fun ls => ls.map (fun l => l.map regionSig))

/-- Every event produced by the layout stage is a layout-model invocation. -/
theorem layoutStageEvents_mem (m : CustomPEKModel) (images : List Image) :
    ∀ e ∈ layoutStageEvents m images, e = Event.layoutPredict := by
  intro e he
  unfold layoutStageEvents at he
  split at he
  · rcases List.mem_map.mp he with ⟨x, -, h⟩
    exact h.symm
  · split at he
    · simpa using he
    · simp at he

/-- Every event in a table-region step's trace is a per-image event. -/
theorem processTableRegion_trace_isPerImage (m : CustomPEKModel) (img : Image)
    (t : Nat) (res : Region) :
    ∀ e ∈ (processTableRegion m img t res).2, e.isPerImage = true := by
  intro e he
  unfold processTableRegion at he
  rcases hc : tableHtmlCode m img with - | code <;> rw [hc] at he <;>
    dsimp only at he <;> split_ifs at he <;> simp at he <;>
    rcases he with rfl | rfl <;> rfl

/-- Every event in the table stage's trace is a per-image event. -/
theorem tableStage_trace_isPerImage (m : CustomPEKModel) (C : Collaborators)
    (pil_img : Image) (layout_res : List Region) :
    ∀ e ∈ (tableStage m C pil_img layout_res).2, e.isPerImage = true := by
  intro e he
  unfold tableStage at he
  split at he
  · simp only at he
    rcases List.mem_append.mp he with h | h
    · rcases List.mem_flatMap.mp h with ⟨r, -, hr⟩
      exact processTableRegion_trace_isPerImage _ _ _ _ e hr
    · simp at h
      subst h; rfl
  · simp at he

/-- Every event in one per-image iteration's trace is a per-image event. -/
theorem processImage_trace_isPerImage (m : CustomPEKModel) (C : Collaborators)
    (image : Image) (layout_res : List Region) :
    ∀ e ∈ (processImage m C image layout_res).2, e.isPerImage = true := by
  intro e he
  unfold processImage at he
  simp only at he
  rcases List.mem_append.mp he with h | h
  · rcases List.mem_append.mp h with h1 | h1
    · rcases List.mem_map.mp h1 with ⟨x, -, hx⟩
      rw [hx.symm]; rfl
    · simp at h1
      subst h1; rfl
  · exact tableStage_trace_isPerImage _ _ _ _ e h

/-- Positions of a cleanup event and of a per-image event when the trace is
batched-stage events, then the cleanup, then per-image events. -/
theorem trace_sandwich (pre post : List Event) (t : Nat)
    (hpre : ∀ e ∈ pre, e.isPerImage = false ∧ ∀ s, e ≠ Event.cleanVram s)
    (hpost : ∀ e ∈ post, e.isPerImage = true)
    (i j ti : Nat) (e : Event)
    (hi : (pre ++ Event.cleanVram t :: post).get? i = some (Event.cleanVram ti))
    (hj : (pre ++ Event.cleanVram t :: post).get? j = some e)
    (he : e.isPerImage = true) : i < j := by
  have hilen : i = pre.length := by
    rcases lt_trichotomy i pre.length with h | h | h
    · exfalso
      rw [List.get?_append h] at hi
      have hmem : Event.cleanVram ti ∈ pre := List.mem_iff_get?.mpr ⟨i, hi⟩
      exact (hpre _ hmem).2 ti rfl
    · exact h
    · exfalso
      rw [List.get?_append_right (Nat.le_of_lt h)] at hi
      rcases Nat.exists_eq_add_of_lt h with ⟨k, rfl⟩
      have hpost' : (Event.cleanVram t :: post).get? (pre.length + k + 1 - pre.length)
          = some (Event.cleanVram ti) := hi
      rw [Nat.add_assoc, Nat.add_sub_cancel_left] at hpost'
      simp only [List.get?_cons_succ] at hpost'
      have hmem : Event.cleanVram ti ∈ post := List.mem_iff_get?.mpr ⟨k, hpost'⟩
      have hper := hpost _ hmem
      simp [Event.isPerImage] at hper
  subst hilen
  rcases Nat.lt_or_ge pre.length j with h | h
  · exact h
  · exfalso
    rcases Nat.lt_or_ge j pre.length with h2 | h2
    · rw [List.get?_append h2] at hj
      have hmem : e ∈ pre := List.mem_iff_get?.mpr ⟨j, hj⟩
      rw [(hpre _ hmem).1] at he
      exact Bool.false_ne_true he
    · have hjl : j = pre.length := Nat.le_antisymm h h2
      subst hjl
      rw [List.get?_append_right (Nat.le_refl _)] at hj
      rw [Nat.sub_self] at hj
      simp only [List.get?_cons_zero] at hj
      have hce : Event.cleanVram t = e := by
        injection hj with h3
      rw [hce.symm] at he
      simp [Event.isPerImage] at he

/-- Events preceding the cleanup step are neither per-image nor cleanup
events. -/
theorem preEvents_fact (m : CustomPEKModel) (images : List Image) :
    ∀ e ∈ layoutStageEvents m images ++
      (if m.apply_formula then [Event.mfdPredict, Event.mfrPredict] else []),
      e.isPerImage = false ∧ ∀ s, e ≠ Event.cleanVram s := by
  intro e he
  rcases List.mem_append.mp he with h | h
  · have h2 := layoutStageEvents_mem m images e h
    subst h2
    exact ⟨rfl, fun s hh => Event.noConfusion hh⟩
  · split at h
    · simp only [List.mem_cons, List.not_mem_nil, or_false] at h
      rcases h with rfl | rfl
      · exact ⟨rfl, fun s hh => Event.noConfusion hh⟩
      · exact ⟨rfl, fun s hh => Event.noConfusion hh⟩
    · cases h

/-- Shape of the orchestrator's trace: either it stops before the cleanup (the
unbound-variable error inside the formula stage), or it is batched-stage
events, one cleanup, then only per-image events. -/
theorem call_trace_shape (m : CustomPEKModel) (C : Collaborators) (br : Nat)
    (images : List Image) :
    (BatchAnalyze.call m C br images).trace
        = layoutStageEvents m images ++
          (if m.apply_formula then [Event.mfdPredict, Event.mfrPredict] else [])
    ∨ ∃ post, (∀ e ∈ post, e.isPerImage = true) ∧
        (BatchAnalyze.call m C br images).trace
          = (layoutStageEvents m images ++
              (if m.apply_formula then [Event.mfdPredict, Event.mfrPredict] else []))
            ++ Event.cleanVram 8 :: post := by
  unfold BatchAnalyze.call
  cases hL : layoutStageRes m br images with
  | none =>
    cases images with
    | nil =>
      right
      exact ⟨[], by simp, by simp⟩
    | cons a l =>
      by_cases hf : m.apply_formula
      · left; simp [hf]
      · right
        exact ⟨[], by simp, by simp [hf]⟩
  | some L =>
    right
    refine ⟨(((List.range images.length).map (fun index =>
        processImage m C (images.getD index default)
          ((formulaStage m br images L).getD index []))).map (fun p => p.2)).flatten,
      ?_, ?_⟩
    · intro e he
      rcases List.mem_flatten.mp he with ⟨l, hl, hel⟩
      rcases List.mem_map.mp hl with ⟨p, hp, rfl⟩
      rcases List.mem_map.mp hp with ⟨idx, -, rfl⟩
      exact processImage_trace_isPerImage _ _ _ _ e hel
    · simp [List.append_assoc]

/-- The orchestrator's Python return value is always `None` or an
unbound-variable error. -/
theorem call_ret_cases (m : CustomPEKModel) (C : Collaborators) (br : Nat)
    (images : List Image) :
    (BatchAnalyze.call m C br images).ret = .ok none
    ∨ (BatchAnalyze.call m C br images).ret = .error .unboundLocalError := by
  unfold BatchAnalyze.call
  cases layoutStageRes m br images with
  | none =>
    cases images with
    | nil => left; rfl
    | cons a l =>
      by_cases hf : m.apply_formula
      · right; simp [hf]
      · right; simp [hf]
  | some L => left; rfl

/-- With a recognized layout strategy the orchestrator completes, returning
Python `None`. -/
theorem call_ret_ok_of_recognized (m : CustomPEKModel) (C : Collaborators)
    (br : Nat) (images : List Image)
    (hname : m.layout_model_name = MODEL_NAME.LAYOUTLMv3
      ∨ m.layout_model_name = MODEL_NAME.DocLayout_YOLO) :
    (BatchAnalyze.call m C br images).ret = .ok none := by
  have hsome : ∃ L, layoutStageRes m br images = some L := by
    unfold layoutStageRes
    rcases hname with h | h
    · rw [if_pos h]; exact ⟨_, rfl⟩
    · have hne : m.layout_model_name ≠ MODEL_NAME.LAYOUTLMv3 := by
        rw [h]; decide
      rw [if_neg hne, if_pos h]; exact ⟨_, rfl⟩
  rcases hsome with ⟨L, hL⟩
  unfold BatchAnalyze.call
  rw [hL]

/-- When the orchestrator's return value is `None`, the reassembly loop raises
the attribute error at the first in-range page index. -/
theorem reassemble_none_err (ds : Dataset) (pred : Nat → Bool) :
    ∀ idx : List Nat, (∃ i ∈ idx, pred i = true) →
      (reassemble ds pred none idx).1 = .error .attributeErrorNonePop := by
  intro idx
  induction idx with
  | nil => rintro ⟨i, hi, -⟩; cases hi
  | cons a l ih =>
    rintro ⟨i, hi, hp⟩
    unfold reassemble
    by_cases ha : pred a
    · rw [if_pos ha]
    · rw [if_neg ha]
      have hil : i ∈ l := by
        rcases List.mem_cons.mp hi with rfl | h2
        · exact absurd hp ha
        · exact h2
      have hres := ih ⟨i, hil, hp⟩
      rcases hre : reassemble ds pred none l with ⟨res, ev⟩
      rw [hre] at hres
      cases res with
      | ok pages => simp at hres
      | error e =>
        simp only
        exact hres

/-- The reassembly loop never raises the accelerator-precondition error. -/
theorem reassemble_err_ne_cuda (ds : Dataset) (pred : Nat → Bool) :
    ∀ (idx : List Nat) (q : Option (List (List Region))),
      (reassemble ds pred q idx).1 ≠ .error .cudaNotAvailable := by
  intro idx
  induction idx with
  | nil => intro q h; simp [reassemble] at h
  | cons a l ih =>
    intro q h
    unfold reassemble at h
    by_cases ha : pred a
    · rw [if_pos ha] at h
      rcases q with - | q
      · simp at h
      · rcases q with - | ⟨r, q'⟩
        · simp at h
        · dsimp only at h
          split at h
          next pages ev heq => simp at h
          next e ev heq =>
            refine ih (some q') ?_
            rw [heq]
            exact h
    · rw [if_neg ha] at h
      split at h
      next pages ev heq => simp at h
      next e ev heq =>
        refine ih q ?_
        rw [heq]
        exact h

/-- The formula-merge loop only overwrites entries, so it preserves length. -/
theorem foldl_set_length (F : List (List Region)) (lst : List Nat) :
    ∀ acc : List (List Region),
      (lst.foldl (fun acc i => acc.set i (acc.getD i [] ++ F.getD i [])) acc).length
        = acc.length := by
  induction lst with
  | nil => intro acc; rfl
  | cons a l ih =>
    intro acc
    rw [List.foldl_cons, ih, List.length_set]

/-- Pointwise description of the formula-merge loop: every index below the
loop bound and inside the layout list receives its recognized formulas
appended; all other entries are untouched. -/
theorem mergeFormulaLists_getD (L F : List (List Region)) :
    ∀ n i, (mergeFormulaLists L F n).getD i []
      = if i < n ∧ i < L.length then L.getD i [] ++ F.getD i [] else L.getD i [] := by
  intro n
  induction n with
  | zero =>
    intro i
    simp [mergeFormulaLists]
  | succ n ih =>
    intro i
    have hstep : mergeFormulaLists L F (n + 1)
        = (mergeFormulaLists L F n).set n
            ((mergeFormulaLists L F n).getD n [] ++ F.getD n []) := by
      unfold mergeFormulaLists
      rw [List.range_succ, List.foldl_append]
      rfl
    have hlen : (mergeFormulaLists L F n).length = L.length :=
      foldl_set_length F (List.range n) L
    rw [hstep, List.getD_eq_getElem?_getD, List.getElem?_set]
    by_cases hni : n = i
    · subst hni
      by_cases hlt : n < L.length
      · rw [if_pos rfl, if_pos (hlen ▸ hlt)]
        simp only [Option.getD_some]
        rw [ih n]
        rw [if_neg (by omega), if_pos ⟨Nat.lt_succ_self n, hlt⟩]
      · rw [if_pos rfl, if_neg (hlen ▸ hlt)]
        simp only [Option.getD_none]
        rw [if_neg (by omega)]
        rw [List.getD_eq_getElem?_getD, List.getElem?_eq_none (by omega), Option.getD_none]
    · rw [if_neg hni, ← List.getD_eq_getElem?_getD, ih i]
      have hiff : (i < n ∧ i < L.length) ↔ (i < n + 1 ∧ i < L.length) := by omega
      rw [if_congr hiff rfl rfl]

/-- Claim C1 (refuting evidence for the code bug): `BatchAnalyze.__call__`
never returns the index-aligned list of per-image region lists — the method
body has no `return` statement, so every completed call returns Python `None`,
even though the merged per-image region lists have been computed (they remain
in the local `images_layout_res`, as the concrete run shows). -/
theorem c1_call_returns_none :
    (∀ (m : CustomPEKModel) (C : Collaborators) (br : Nat) (images : List Image)
        (L : List (List Region)), (BatchAnalyze.call m C br images).ret ≠ .ok (some L))
    ∧ (BatchAnalyze.call mBase c0 1 [img0]).internal = some [[rPlain]]
    ∧ (BatchAnalyze.call mBase c0 1 [img0]).ret = .ok none := by
  refine ⟨?_, rfl, rfl⟩
  intro m C br images L h
  rcases call_ret_cases m C br images with h2 | h2 <;> rw [h2] at h <;> simp at h

/-- Claim C2 (refuting evidence for the code bug): for every dataset with at
least one page in the requested range and a model bundle using a recognized
layout strategy, `doc_batch_analyze` raises the attribute error at
`analyze_result.pop(0)` — because `BatchAnalyze.__call__` returned `None` —
instead of producing one page record per page. -/
theorem c2_driver_crashes
    (gm : Bool → Bool → Option String → Option String → Option Bool → Option Bool → CustomPEKModel)
    (C : Collaborators) (ds : Dataset) (ocr sl : Bool) (sp : Int) (ep : Option Int)
    (lang lm : Option String) (fe te : Option Bool) (br : Option Nat)
    (hrec : ∀ a b c d e f, (gm a b c d e f).layout_model_name = MODEL_NAME.LAYOUTLMv3
      ∨ (gm a b c d e f).layout_model_name = MODEL_NAME.DocLayout_YOLO)
    (hin : ∃ i, i < ds.length ∧ pageInBatch sp (effectiveEnd ep ds.length) i = true) :
    (doc_batch_analyze true gm C ds ocr sl sp ep lang lm fe te br).1
      = .error .attributeErrorNonePop := by
  unfold doc_batch_analyze
  rw [if_neg (by decide : ¬ (true = false))]
  have hok := call_ret_ok_of_recognized
    (gm ocr sl (if lang = some "" then none else lang) lm fe te) C (br.getD 1)
    (((List.range ds.length).filter
        (fun i => pageInBatch sp (effectiveEnd ep ds.length) i)).map
      (fun i => (ds.getD i default).img))
    (hrec _ _ _ _ _ _)
  simp only
  rw [hok]
  dsimp only
  rcases hin with ⟨i, hilt, hip⟩
  have hre := reassemble_none_err ds (pageInBatch sp (effectiveEnd ep ds.length))
    (List.range ds.length) ⟨i, List.mem_range.mpr hilt, hip⟩
  split
  next e evRe heq =>
    rw [heq] at hre
    simpa using hre
  next mj evRe heq =>
    rw [heq] at hre
    simp at hre

/-- Claim C2, witness: the one-page dataset `ds1` with default arguments has
page 0 in range, and the driver run ends in the attribute error. -/
theorem c2_witness :
    ((∀ a b c d e f, (gm0 a b c d e f).layout_model_name = MODEL_NAME.LAYOUTLMv3
        ∨ (gm0 a b c d e f).layout_model_name = MODEL_NAME.DocLayout_YOLO)
      ∧ ∃ i, i < ds1.length
          ∧ pageInBatch 0 (effectiveEnd none ds1.length) i = true)
  ∧ (doc_batch_analyze true gm0 c0 ds1 false false 0 none none none none none none).1
      = .error .attributeErrorNonePop :=
  ⟨⟨fun _ _ _ _ _ _ => Or.inl rfl, ⟨0, by decide, by decide⟩⟩,
   c2_driver_crashes gm0 c0 ds1 false false 0 none none none none none none
     (fun _ _ _ _ _ _ => Or.inl rfl) ⟨0, by decide, by decide⟩⟩

/-- Claim C3 (amended): a page index below the page count is placed in the
image batch exactly when the claim's inclusive-range condition holds after
replacing a supplied `end_page_id` of `0` by "unset" — line 192's Python
truthiness test treats `0` like `None`. -/
theorem c3_amended (start : Int) (ep : Option Int) (n i : Nat) (h : i < n) :
    pageInBatch start (effectiveEnd ep n) i
      = claimedInRange start (if ep = some 0 then none else ep) i := by
  have hin : ((i : Int)) ≤ (n : Int) := by exact_mod_cast Nat.le_of_lt h
  unfold pageInBatch claimedInRange effectiveEnd
  rcases ep with - | e
  · simp [hin]
  · by_cases he : e = 0
    · subst he
      simp [hin]
    · simp [he]

/-- Claim C3, counterexample: with two pages, `start_page_id = 0` and a
supplied `end_page_id = 0`, page 1 passes the code's batch filter (both pages
are batched) although the claim's condition `0 ≤ 1 ≤ 0` is false. -/
theorem c3_counterexample :
    pageInBatch 0 (effectiveEnd (some 0) 2) 1 = true
  ∧ claimedInRange 0 (some 0) 1 = false
  ∧ (List.range 2).filter (fun i => pageInBatch 0 (effectiveEnd (some 0) 2) i) = [0, 1] := by
  decide

/-- Claim C3, witness: a non-zero supplied `end_page_id` behaves exactly as
the claim states. -/
theorem c3_witness :
    (1 : Nat) < 3 ∧ pageInBatch 0 (effectiveEnd (some 2) 3) 1
      = claimedInRange 0 (if (some 2 : Option Int) = some 0 then none else some 2) 1 :=
  ⟨by decide, c3_amended 0 (some 2) 3 1 (by decide)⟩

/-- Claim C4 (amended): when the accelerator is unavailable the driver fails
with the CUDA error before any observable work (its trace is empty: no model
resolution, no dataset access, no cleanup) and that error occurs only under
that precondition; the accompanying counterexample shows it is not the only
fatal condition the core originates. -/
theorem c4_fail_fast
    (gm : Bool → Bool → Option String → Option String → Option Bool → Option Bool → CustomPEKModel)
    (C : Collaborators) (ds : Dataset) (ocr sl : Bool) (sp : Int) (ep : Option Int)
    (lang lm : Option String) (fe te : Option Bool) (br : Option Nat) :
    doc_batch_analyze false gm C ds ocr sl sp ep lang lm fe te br
      = (.error .cudaNotAvailable, [])
  ∧ (doc_batch_analyze true gm C ds ocr sl sp ep lang lm fe te br).1
      ≠ .error .cudaNotAvailable := by
  constructor
  · rfl
  · unfold doc_batch_analyze
    rw [if_neg (by decide : ¬ (true = false))]
    simp only
    split
    next e heq =>
      rcases call_ret_cases (gm ocr sl (if lang = some "" then none else lang) lm fe te)
          C (br.getD 1) (((List.range ds.length).filter
            (fun i => pageInBatch sp (effectiveEnd ep ds.length) i)).map
            (fun i => (ds.getD i default).img)) with h2 | h2 <;> rw [h2] at heq
      · exact Except.noConfusion heq
      · injection heq with h3
        subst h3
        intro hc
        injection hc with h4
        exact PyError.noConfusion h4
    next retval heq =>
      split
      next e2 evRe heq2 =>
        intro hc
        injection hc with h4
        subst h4
        refine reassemble_err_ne_cuda ds
          (pageInBatch sp (effectiveEnd ep ds.length)) (List.range ds.length) retval ?_
        rw [heq2]
      next mj evRe heq2 =>
        intro hc
        exact Except.noConfusion hc

/-- Claim C4, counterexample: with the accelerator available, a two-page run
under the batched layout strategy ends in the attribute error caused by the
missing orchestrator return — a second fatal condition originated by this
core, distinct from the CUDA precondition error. -/
theorem c4_counterexample :
    (doc_batch_analyze true gmY c0 ds2 true false 0 none none none none none none).1
      = .error .attributeErrorNonePop
  ∧ (Except.error PyError.attributeErrorNonePop
      : Except PyError InferenceResult) ≠ .error .cudaNotAvailable := by
  refine ⟨rfl, ?_⟩
  intro h
  injection h with h2
  exact PyError.noConfusion h2

/-- Claim C5: for a table-candidate region whose content is unset, the
recognized markup is attached as content exactly when it is present, non-empty
and its stripped text ends in a recognized closing tag; an attached content is
the backend's markup verbatim; when nothing is attached a warning (missing
markup or bad ending) is in the trace; and the table stage always processes
every region of the list, preserving its length. -/
theorem c5_table_markup_validation (m : CustomPEKModel) (img : Image) (t : Nat)
    (res : Region) (hunset : res.html = none) :
    ((processTableRegion m img t res).1.html ≠ none ↔
      ∃ s, tableHtmlCode m img = some s ∧ s ≠ "" ∧
        (pyEndsWith (pyStrip s) "</html>" || pyEndsWith (pyStrip s) "</table>") = true)
  ∧ (∀ s, (processTableRegion m img t res).1.html = some s → tableHtmlCode m img = some s)
  ∧ ((processTableRegion m img t res).1.html = none →
      Event.warnTableNoHtml ∈ (processTableRegion m img t res).2
        ∨ Event.warnTableBadEnding ∈ (processTableRegion m img t res).2)
  ∧ (∀ (C : Collaborators) (pil : Image) (l : List Region),
      (tableStage m C pil l).1.length = l.length) := by
  have hlen : ∀ (C : Collaborators) (pil : Image) (l : List Region),
      (tableStage m C pil l).1.length = l.length := by
    intro C pil l
    unfold tableStage
    split
    · simp
    · rfl
  unfold processTableRegion
  rcases hc : tableHtmlCode m img with - | code <;> dsimp only
  · refine ⟨?_, ?_, ?_, hlen⟩
    · simp [hunset]
    · intro s hs; rw [hunset] at hs; exact Option.noConfusion hs
    · intro _h; left; simp
  · by_cases hemp : code = ""
    · subst hemp
      rw [if_pos rfl]
      refine ⟨?_, ?_, ?_, hlen⟩
      · simp [hunset]
      · intro s hs; rw [hunset] at hs; exact Option.noConfusion hs
      · intro _h; left; simp
    · rw [if_neg hemp]
      by_cases hend : (pyEndsWith (pyStrip code) "</html>"
          || pyEndsWith (pyStrip code) "</table>") = true
      · rw [if_pos hend]
        refine ⟨?_, ?_, ?_, hlen⟩
        · simp only
          constructor
          · intro _h; exact ⟨code, rfl, hemp, hend⟩
          · intro _h; simp
        · intro s hs
          exact hs
        · intro hnone; simp at hnone
      · rw [if_neg hend]
        refine ⟨?_, ?_, ?_, hlen⟩
        · simp only [hunset]
          constructor
          · intro h2; exact absurd rfl h2
          · rintro ⟨s, hs, -, hs3⟩
            injection hs with h3
            subst h3
            exact absurd hs3 hend
        · intro s hs; rw [hunset] at hs; exact Option.noConfusion hs
        · intro _h; right; simp

/-- Claim C5, witness: the concrete TableMaster backend of `mBase` returns
well-formed markup, so the validation contract holds at `rTable`. -/
theorem c5_witness :
    rTable.html = none
  ∧ (((processTableRegion mBase img0 0 rTable).1.html ≠ none ↔
      ∃ s, tableHtmlCode mBase img0 = some s ∧ s ≠ "" ∧
        (pyEndsWith (pyStrip s) "</html>" || pyEndsWith (pyStrip s) "</table>") = true)
    ∧ (∀ s, (processTableRegion mBase img0 0 rTable).1.html = some s →
        tableHtmlCode mBase img0 = some s)
    ∧ ((processTableRegion mBase img0 0 rTable).1.html = none →
        Event.warnTableNoHtml ∈ (processTableRegion mBase img0 0 rTable).2
          ∨ Event.warnTableBadEnding ∈ (processTableRegion mBase img0 0 rTable).2)
    ∧ (∀ (C : Collaborators) (pil : Image) (l : List Region),
        (tableStage mBase C pil l).1.length = l.length)) :=
  ⟨rfl, c5_table_markup_validation mBase img0 0 rTable rfl⟩

/-- Claim C6: the table time budget is advisory — the region returned by a
table step is the same for any two measured durations, and exceeding the
configured maximum only places a timeout warning in the trace (present exactly
when the measured duration exceeds the budget). -/
theorem c6_time_budget_advisory (m : CustomPEKModel) (img : Image) (t1 t2 : Nat)
    (res : Region) :
    (processTableRegion m img t1 res).1 = (processTableRegion m img t2 res).1
  ∧ (Event.warnTableTimeout ∈ (processTableRegion m img t1 res).2 ↔
      t1 > m.table_max_time) := by
  unfold processTableRegion
  rcases hc : tableHtmlCode m img with - | code <;> dsimp only
  · constructor
    · rfl
    · by_cases h1 : t1 > m.table_max_time <;> simp [h1]
  · constructor
    · by_cases hemp : code = ""
      · simp only [if_pos hemp]
      · by_cases hend : (pyEndsWith (pyStrip code) "</html>"
            || pyEndsWith (pyStrip code) "</table>") = true
        · simp only [if_neg hemp, if_pos hend]
        · simp only [if_neg hemp, if_neg hend]
    · by_cases hemp : code = ""
      · simp only [if_pos hemp]
        by_cases h1 : t1 > m.table_max_time <;> simp [h1]
      · by_cases hend : (pyEndsWith (pyStrip code) "</html>"
            || pyEndsWith (pyStrip code) "</table>") = true
        · simp only [if_neg hemp, if_pos hend]
          by_cases h1 : t1 > m.table_max_time <;> simp [h1]
        · simp only [if_neg hemp, if_neg hend]
          by_cases h1 : t1 > m.table_max_time <;> simp [h1]

/-- Claim C7: with the formula stage disabled the region lists pass through
unchanged; with it enabled, every image's recognized formulas are appended
verbatim to that image's layout list (no merging, no deduplication). -/
theorem c7_formula_stage (m : CustomPEKModel) (br : Nat) (images : List Image)
    (L : List (List Region)) :
    (m.apply_formula = false → formulaStage m br images L = L)
  ∧ (m.apply_formula = true → ∀ i, i < images.length → i < L.length →
      (formulaStage m br images L).getD i []
        = L.getD i [] ++ (m.mfr_batch_predict
            (m.mfd_batch_predict images (br * MFD_BASE_BATCH_SIZE)) images
            (br * MFR_BASE_BATCH_SIZE)).getD i []) := by
  constructor
  · intro hf
    simp [formulaStage, hf]
  · intro hf i h1 h2
    unfold formulaStage
    rw [hf]
    simp only [if_true]
    rw [mergeFormulaLists_getD, if_pos ⟨h1, h2⟩]

/-- Claim C7, witness: a disabled run is the identity on a concrete layout
list, and an enabled run appends the recognized formulas of image 0. -/
theorem c7_witness :
    (formulaStage mBase 1 [img0] [[rPlain]] = [[rPlain]])
  ∧ ((formulaStage mFormula 1 [img0] [[rOcr]]).getD 0 []
      = [rOcr] ++ (mFormula.mfr_batch_predict
          (mFormula.mfd_batch_predict [img0] (1 * MFD_BASE_BATCH_SIZE)) [img0]
          (1 * MFR_BASE_BATCH_SIZE)).getD 0 []) :=
  ⟨(c7_formula_stage mBase 1 [img0] [[rPlain]]).1 rfl,
   (c7_formula_stage mFormula 1 [img0] [[rOcr]]).2 rfl 0 (by decide) (by decide)⟩

/-- Claim C8 (amended): the accelerator-memory cleanup (threshold 8) happens
after the batched layout/formula stages but BEFORE the per-image OCR/table
processing — in every orchestrator trace, each cleanup event strictly precedes
each per-image event. -/
theorem c8_cleanup_precedes_per_image (m : CustomPEKModel) (C : Collaborators)
    (br : Nat) (images : List Image) (i j ti : Nat) (e : Event)
    (hi : (BatchAnalyze.call m C br images).trace.get? i = some (Event.cleanVram ti))
    (hj : (BatchAnalyze.call m C br images).trace.get? j = some e)
    (he : e.isPerImage = true) : i < j := by
  rcases call_trace_shape m C br images with h | ⟨post, hpost, h⟩
  · exfalso
    rw [h] at hi
    have hmem := List.mem_iff_get?.mpr ⟨i, hi⟩
    exact (preEvents_fact m images _ hmem).2 ti rfl
  · rw [h] at hi hj
    exact trace_sandwich _ _ _ (preEvents_fact m images) hpost i j ti e hi hj he

/-- Claim C8, witness: in the concrete trace of `m8`, the cleanup sits at
position 1 and the OCR event at position 2, so position 1 precedes it. -/
theorem c8_witness : ((BatchAnalyze.call m8 c0 1 [img0]).trace.get? 1
      = some (Event.cleanVram 8)) ∧ (1 : Nat) < 2 :=
  ⟨rfl, c8_cleanup_precedes_per_image m8 c0 1 [img0] 1 2 8 Event.ocrCall rfl rfl rfl⟩

/-- Claim C8, counterexample: in the concrete `m8` run the cleanup event (at
position 1) precedes the per-image OCR event (at position 2), so the cleanup
does not occur after all the per-image processing as claimed. -/
theorem c8_counterexample :
    ¬ cleanupAfterAllPerImage (BatchAnalyze.call m8 c0 1 [img0]).trace := by
  intro h
  have h2 := h 1 2 8 Event.ocrCall rfl rfl rfl
  omega

/-- Claim C9: the pipeline is a pure function of the model bundle, the
collaborators, the batch ratio and the image batch; two runs on identical
inputs produce identical outcomes, in particular identical region boxes and
categories. -/
theorem c9_deterministic (ma mb : CustomPEKModel) (Ca Cb : Collaborators)
    (bra brb : Nat) (imagesa imagesb : List Image)
    (hm : ma = mb) (hC : Ca = Cb) (hbr : bra = brb) (himg : imagesa = imagesb) :
    internalSigs (BatchAnalyze.call ma Ca bra imagesa).internal
      = internalSigs (BatchAnalyze.call mb Cb brb imagesb).internal
  ∧ BatchAnalyze.call ma Ca bra imagesa = BatchAnalyze.call mb Cb brb imagesb := by
  subst hm hC hbr himg
  exact ⟨rfl, rfl⟩

/-- Claim C9, witness: two identical concrete runs coincide. -/
theorem c9_witness :
    internalSigs (BatchAnalyze.call mBase c0 1 [img0]).internal
      = internalSigs (BatchAnalyze.call mBase c0 1 [img0]).internal
  ∧ BatchAnalyze.call mBase c0 1 [img0] = BatchAnalyze.call mBase c0 1 [img0] :=
  c9_deterministic mBase mBase c0 c0 1 1 [img0] [img0] rfl rfl rfl rfl

/-- Claim C10 (amended): with an unrecognized layout model name the layout
result list is never bound; on a non-empty image batch the call fails with the
unbound-variable error, but on an empty batch the unbound variable is never
read and the call completes, returning Python `None`. -/
theorem c10_unrecognized_layout (m : CustomPEKModel) (C : Collaborators) (br : Nat)
    (images : List Image)
    (h1 : m.layout_model_name ≠ MODEL_NAME.LAYOUTLMv3)
    (h2 : m.layout_model_name ≠ MODEL_NAME.DocLayout_YOLO) :
    (BatchAnalyze.call m C br images).internal = none
  ∧ (images ≠ [] →
      (BatchAnalyze.call m C br images).ret = .error .unboundLocalError)
  ∧ (images = [] → (BatchAnalyze.call m C br images).ret = .ok none) := by
  have hnone : layoutStageRes m br images = none := by
    unfold layoutStageRes
    rw [if_neg h1, if_neg h2]
  unfold BatchAnalyze.call
  rw [hnone]
  cases images with
  | nil =>
    exact ⟨rfl, fun h => absurd rfl h, fun _ => rfl⟩
  | cons a l =>
    by_cases hf : m.apply_formula
    · refine ⟨?_, ?_, ?_⟩
      · simp [hf]
      · intro _h; simp [hf]
      · intro h; exact List.noConfusion h
    · refine ⟨?_, ?_, ?_⟩
      · simp [hf]
      · intro _h; simp [hf]
      · intro h; exact List.noConfusion h

/-- Claim C10, counterexample: with the unrecognized layout name of `mBad` and
an EMPTY image batch the call does not fail — it completes and returns Python
`None`, contradicting the claim that any such call fails with the
unbound-variable error. -/
theorem c10_counterexample :
    mBad.layout_model_name ≠ MODEL_NAME.LAYOUTLMv3
  ∧ mBad.layout_model_name ≠ MODEL_NAME.DocLayout_YOLO
  ∧ (BatchAnalyze.call mBad c0 1 []).ret = .ok none :=
  ⟨by decide, by decide, rfl⟩

/-- Claim C10, witness: on the non-empty batch `[img0]` the unrecognized
layout name of `mBad` leaves the result list unbound and the call fails with
the unbound-variable error. -/
theorem c10_witness :
    (mBad.layout_model_name ≠ MODEL_NAME.LAYOUTLMv3
      ∧ mBad.layout_model_name ≠ MODEL_NAME.DocLayout_YOLO)
  ∧ ((BatchAnalyze.call mBad c0 1 [img0]).internal = none
      ∧ ([img0] ≠ ([] : List Image) →
          (BatchAnalyze.call mBad c0 1 [img0]).ret = .error .unboundLocalError)
      ∧ ([img0] = ([] : List Image) →
          (BatchAnalyze.call mBad c0 1 [img0]).ret = .ok none)) :=
  ⟨⟨by decide, by decide⟩,
   c10_unrecognized_layout mBad c0 1 [img0] (by decide) (by decide)⟩
